import Mathlib

/-!
# Verification of the ZBase worker thread pool (`thread_pool` / `task_pool`)

This file gives a shallow embedding of the concurrency core of the ZBase
repository: the generic worker thread pool `thread_pool` and its
capacity-bounded variant `task_pool`.

The embedding has two cooperating models, both translated from the source
header:

* A *schedule model* of a single submitter interacting with a
  `task_pool`.  The submitter runs under the queue lock; each time its
  condition variable wakes, the environment (workers popping tasks, other
  submitters, the external state read by a caller-supplied poller) is
  summarised by an observation `Obs` delivered at an absolute wake time.
  The condition-variable primitives `cvWait` / `cvWaitUntil` /
  `cvWaitFor` follow the standard predicate-overload expansions
  (`while (!pred()) wait(lck);` and
  `while (!pred()) { if (wait_until(lck, t) == timeout) return pred(); }`),
  and the `task_pool` submission members are built from them exactly as in
  the source: each public member calls `task_pool::wait_to_enqueue`, which
  wraps the member-specific wait in the capacity loop
  `while (!can_enqueue_unlocked()) wait(lck);` before the base class pushes
  the task.  The loop is given fuel (a bound on the number of wait-policy
  invocations); exhausted fuel models a submitter that is still blocked.

* An *event-trace model* of `thread_pool::wait_to_enqueue` recording the
  order of the lock and queue operations performed by one submission
  (build the packaged task, acquire the lock, run the wait policy, assert
  lock ownership, push, release, notify one worker).

Machine integers (`size_t` lengths, counts) are modelled as `Nat`; none of
the modelled code overflows or truncates.
-/

namespace ZBase

/-- Absolute time, in abstract clock ticks. -/
abbrev Time := Nat

/-- What a submitter blocked inside a `task_pool` wait observes each time it
wakes holding the queue lock: the current task queue (front first, tasks
identified by `Nat` ids) and the current truth value of the external state
consulted by a caller-supplied poller. -/
structure Obs where
  queue : List Nat
  ext : Bool
deriving Repr, DecidableEq

/-- The environment schedule seen by one blocked submitter: the successive
condition-variable notifications (or spurious wakes), each with its absolute
time and the pool state observed under the re-acquired lock.  Wake times are
taken non-decreasing; `max` is used defensively when accumulating. -/
abbrev Sched := List (Time × Obs)

/-- `thread_pool::size_unlocked`: the current queue length (`tasks.size()`). -/
def thread_pool.size_unlocked (tasks : List Nat) : Nat :=
  tasks.length

/-- `task_pool::can_enqueue_unlocked`: `size_unlocked() < max_tasks`. -/
def task_pool.can_enqueue_unlocked (max_tasks : Nat) (tasks : List Nat) : Bool :=
  thread_pool.size_unlocked tasks < max_tasks

/-- `std::condition_variable::wait(lck, pred)`, i.e.
`while (!pred()) wait(lck);`: consume wake events until the predicate holds
at a wake; `none` when the schedule is exhausted with the predicate still
false (the submitter stays blocked forever). -/
def cvWait (pred : Obs → Bool) : Obs → Time → Sched → Option (Obs × Time × Sched)
  | o, t, [] => if pred o then some (o, t, []) else none
  | o, t, (tw, o') :: rest =>
    if pred o then some (o, t, (tw, o') :: rest)
    else cvWait pred o' (max t tw) rest

/-- `std::condition_variable::wait_until(lck, dl, pred)`, i.e.
`while (!pred()) { if (wait_until(lck, dl) == timeout) return pred(); }`:
returns the final predicate value, the observation, the time of return and
the unconsumed schedule.  With no further notification the wait sleeps until
the deadline and re-evaluates the predicate on the unchanged state; a
notification scheduled after the deadline is not consumed (the deadline
fires first). -/
def cvWaitUntil (pred : Obs → Bool) (dl : Time) :
    Obs → Time → Sched → Bool × Obs × Time × Sched
  | o, t, [] =>
    if pred o then (true, o, t, [])
    else if dl ≤ t then (false, o, t, [])
    else (pred o, o, dl, [])
  | o, t, (tw, o') :: rest =>
    if pred o then (true, o, t, (tw, o') :: rest)
    else if dl ≤ t then (false, o, t, (tw, o') :: rest)
    else if dl < tw then (pred o, o, dl, (tw, o') :: rest)
    else cvWaitUntil pred dl o' (max t tw) rest

/-- `std::condition_variable::wait_for(lck, dur, pred)`: `wait_until` with
deadline `now + dur`, the deadline being recomputed at every call. -/
def cvWaitFor (pred : Obs → Bool) (dur : Nat) (o : Obs) (t : Time) (s : Sched) :
    Bool × Obs × Time × Sched :=
  cvWaitUntil pred (t + dur) o t s

/-- A wait policy, as passed to `task_pool::wait_to_enqueue`: runs under the
lock, may block (consuming schedule events), and returns with the lock held;
`none` models a policy blocked forever. -/
def Policy : Type :=
  Obs → Time → Sched → Option (Obs × Time × Sched)

/-- The condition `poller() && can_enqueue_unlocked()` waited on by the
`poll` family. -/
def combined_pred (max_tasks : Nat) (poller : Obs → Bool) (o : Obs) : Bool :=
  poller o && task_pool.can_enqueue_unlocked max_tasks o.queue

/-- The wait lambda of `task_pool::poll`:
`enqueue_condition.wait(lck, [=]{ return poller() && can_enqueue_unlocked(); });`. -/
def pollPolicy (max_tasks : Nat) (poller : Obs → Bool) : Policy :=
  fun o t s => cvWait (combined_pred max_tasks poller) o t s

/-- The wait lambda of `task_pool::poll_for`:
`enqueue_condition.wait_for(lck, duration, ...);` with the result discarded. -/
def pollForPolicy (max_tasks : Nat) (poller : Obs → Bool) (dur : Nat) : Policy :=
  fun o t s => some (cvWaitFor (combined_pred max_tasks poller) dur o t s).2

/-- The wait lambda of `task_pool::poll_until`:
`enqueue_condition.wait_until(lck, abs_time, ...);` with the result
discarded. -/
def pollUntilPolicy (max_tasks : Nat) (poller : Obs → Bool) (abs_time : Time) : Policy :=
  fun o t s => some (cvWaitUntil (combined_pred max_tasks poller) abs_time o t s).2

/-- The capacity loop `while (!can_enqueue_unlocked()) wait(lck);` that
`task_pool::wait_to_enqueue` wraps around the caller-supplied policy.
`fuel` bounds the number of policy invocations; `none` models a submitter
that is still blocked (either inside the policy or out of fuel). -/
def gatedWait (max_tasks : Nat) (w : Policy) :
    Nat → Obs → Time → Sched → Option (Obs × Time × Sched)
  | 0, o, t, s =>
    if task_pool.can_enqueue_unlocked max_tasks o.queue then some (o, t, s) else none
  | fuel + 1, o, t, s =>
    if task_pool.can_enqueue_unlocked max_tasks o.queue then some (o, t, s)
    else (w o t s).bind (fun r => gatedWait max_tasks w fuel r.1 r.2.1 r.2.2)

/-- `task_pool::wait_to_enqueue` composed with the base-class push: run the
capacity loop around the supplied policy and, since the lock is held from
the loop's final capacity check through the push, push the task at the back
of the very queue that check observed.  Returns the queue just after the
push, and the time of admission. -/
def task_pool.wait_to_enqueue (max_tasks : Nat) (w : Policy) (fuel task : Nat)
    (o : Obs) (t : Time) (s : Sched) : Option (List Nat × Time) :=
  match gatedWait max_tasks w fuel o t s with
  | none => none
  | some (o', t', _) => some (o'.queue ++ [task], t')

/-- `task_pool::poll`. -/
def task_pool.poll (max_tasks : Nat) (poller : Obs → Bool) (fuel task : Nat)
    (o : Obs) (t : Time) (s : Sched) : Option (List Nat × Time) :=
  task_pool.wait_to_enqueue max_tasks (pollPolicy max_tasks poller) fuel task o t s

/-- `task_pool::poll_for`. -/
def task_pool.poll_for (max_tasks : Nat) (poller : Obs → Bool) (dur : Nat)
    (fuel task : Nat) (o : Obs) (t : Time) (s : Sched) : Option (List Nat × Time) :=
  task_pool.wait_to_enqueue max_tasks (pollForPolicy max_tasks poller dur) fuel task o t s

/-- `task_pool::poll_until`. -/
def task_pool.poll_until (max_tasks : Nat) (poller : Obs → Bool) (abs_time : Time)
    (fuel task : Nat) (o : Obs) (t : Time) (s : Sched) : Option (List Nat × Time) :=
  task_pool.wait_to_enqueue max_tasks (pollUntilPolicy max_tasks poller abs_time)
    fuel task o t s

/-- `task_pool::wait`: `poll` with an always-true poller. -/
def task_pool.wait (max_tasks : Nat) (fuel task : Nat)
    (o : Obs) (t : Time) (s : Sched) : Option (List Nat × Time) :=
  task_pool.poll max_tasks (fun _ => true) fuel task o t s

/-- `task_pool::wait_for`: `poll_for` with an always-true poller. -/
def task_pool.wait_for (max_tasks : Nat) (dur : Nat) (fuel task : Nat)
    (o : Obs) (t : Time) (s : Sched) : Option (List Nat × Time) :=
  task_pool.poll_for max_tasks (fun _ => true) dur fuel task o t s

/-- `task_pool::wait_until`: `poll_until` with an always-true poller. -/
def task_pool.wait_until (max_tasks : Nat) (abs_time : Time) (fuel task : Nat)
    (o : Obs) (t : Time) (s : Sched) : Option (List Nat × Time) :=
  task_pool.poll_until max_tasks (fun _ => true) abs_time fuel task o t s

/-- The public submission surface of `task_pool`.  `task_pool` inherits
from `thread_pool` privately and re-exports only `size`, so these seven
members (and no unbounded `enqueue`) are the whole public submission
interface. -/
inductive submit_path : Type
  | s_poll (poller : Obs → Bool)
  | s_poll_for (poller : Obs → Bool) (dur : Nat)
  | s_poll_until (poller : Obs → Bool) (abs_time : Time)
  | s_wait
  | s_wait_for (dur : Nat)
  | s_wait_until (abs_time : Time)
  | s_wait_to_enqueue (w : Policy)

/-- The wait policy that each public submission member hands (directly or
through `poll`/`poll_for`/`poll_until`) to `task_pool::wait_to_enqueue`. -/
def submit_policy (max_tasks : Nat) : submit_path → Policy
  | .s_poll poller => pollPolicy max_tasks poller
  | .s_poll_for poller dur => pollForPolicy max_tasks poller dur
  | .s_poll_until poller abs_time => pollUntilPolicy max_tasks poller abs_time
  | .s_wait => pollPolicy max_tasks (fun _ => true)
  | .s_wait_for dur => pollForPolicy max_tasks (fun _ => true) dur
  | .s_wait_until abs_time => pollUntilPolicy max_tasks (fun _ => true) abs_time
  | .s_wait_to_enqueue w => w

/-- Run a public submission member of `task_pool`. -/
def run_submit (p : submit_path) (max_tasks fuel task : Nat)
    (o : Obs) (t : Time) (s : Sched) : Option (List Nat × Time) :=
  match p with
  | .s_poll poller => task_pool.poll max_tasks poller fuel task o t s
  | .s_poll_for poller dur => task_pool.poll_for max_tasks poller dur fuel task o t s
  | .s_poll_until poller abs_time =>
      task_pool.poll_until max_tasks poller abs_time fuel task o t s
  | .s_wait => task_pool.wait max_tasks fuel task o t s
  | .s_wait_for dur => task_pool.wait_for max_tasks dur fuel task o t s
  | .s_wait_until abs_time => task_pool.wait_until max_tasks abs_time fuel task o t s
  | .s_wait_to_enqueue w => task_pool.wait_to_enqueue max_tasks w fuel task o t s

/-- One mutation of the shared queue of a `task_pool`, as seen under the
lock: a capacity-checked admission (the only way any public submission
path pushes, by `run_submit_factors` and `wait_to_enqueue_admits`), or a
worker popping the front task. -/
inductive pool_step (max_tasks : Nat) : List Nat → List Nat → Prop
  | admit_task (q : List Nat) (task : Nat)
      (h : task_pool.can_enqueue_unlocked max_tasks q = true) :
      pool_step max_tasks q (q ++ [task])
  | pop (task : Nat) (q : List Nat) : pool_step max_tasks (task :: q) q

/-- Queue contents reachable from the initial empty queue by admissions and
worker pops. -/
def pool_reachable (max_tasks : Nat) (q : List Nat) : Prop :=
  Relation.ReflTransGen (pool_step max_tasks) [] q

/-!
## Event-trace model of `thread_pool::wait_to_enqueue`

`thread_pool::wait_to_enqueue(wait, f, args...)` performs, in order:
build the shared packaged task and take its future (before any locking);
acquire `queue_mutex`; call `wait(lck)`; `assert(lck.owns_lock())`;
push the type-erased closure; release the lock (end of scope);
`condition.notify_one()`; return the future.
-/

/-- The externally visible actions of one `thread_pool::wait_to_enqueue`
call.  `policyEv n` is an opaque action performed by the caller-supplied
wait policy (which may internally release and reacquire the lock through a
condition variable). -/
inductive thread_pool.Ev : Type
  | buildTask
  | acquire
  | policyEv (n : Nat)
  | assertOwns
  | push
  | release
  | notifyOne
deriving Repr, DecidableEq

/-- The outcome of running a caller-supplied wait policy on the submitter's
ambient state `σ`: the new state, whether the policy returned with the lock
held (the documented postcondition checked by the assertion), and the
markers of the actions it performed. -/
structure thread_pool.WaitRes (σ : Type) where
  st : σ
  owns : Bool
  evs : List Nat

/-- The event trace of one successful `thread_pool::wait_to_enqueue` call
whose wait policy performed the actions `evs`: build the packaged task and
its future, acquire the mutex, run the policy, assert lock ownership, push,
release (end of the lock scope), notify one worker. -/
def wait_to_enqueue_trace (evs : List Nat) : List thread_pool.Ev :=
  [thread_pool.Ev.buildTask, thread_pool.Ev.acquire]
    ++ evs.map thread_pool.Ev.policyEv
    ++ [thread_pool.Ev.assertOwns, thread_pool.Ev.push,
        thread_pool.Ev.release, thread_pool.Ev.notifyOne]

/-- `thread_pool::wait_to_enqueue`: build the task, lock, run the policy,
assert lock ownership (a failed assertion aborts: `none`), push the task at
the back of the queue, unlock, notify one worker.  Returns the new ambient
state, the queue after the push, and the event trace of the call. -/
def thread_pool.wait_to_enqueue {σ : Type} (w : σ → thread_pool.WaitRes σ)
    (task : Nat) (st : σ) (q : List Nat) :
    Option (σ × List Nat × List thread_pool.Ev) :=
  let r := w st
  if r.owns then some (r.st, q ++ [task], wait_to_enqueue_trace r.evs)
  else none

/-- The no-op wait policy `[](std::unique_lock<std::mutex>&){}` used by
`enqueue`: does nothing, leaves the lock held. -/
def thread_pool.noop_waiter {σ : Type} : σ → thread_pool.WaitRes σ :=
  fun st => ⟨st, true, []⟩

/-- `thread_pool::enqueue`: `wait_to_enqueue` with the no-op wait policy. -/
def thread_pool.enqueue {σ : Type} (task : Nat) (st : σ) (q : List Nat) :
    Option (σ × List Nat × List thread_pool.Ev) :=
  thread_pool.wait_to_enqueue thread_pool.noop_waiter task st q

/-- `a` occurs strictly before `b` in the trace `tr`. -/
def evBefore (a b : thread_pool.Ev) (tr : List thread_pool.Ev) : Prop :=
  ∃ l1 l2 l3, tr = l1 ++ a :: l2 ++ b :: l3

/-- Marker test: is this trace event an action of the wait policy? -/
def isWaitEv : thread_pool.Ev → Bool
  | .policyEv _ => true
  | _ => false

/-!
## Task packaging and failure capture

`thread_pool::pack_shared_task` wraps `std::bind(f, args...)` in a
`std::packaged_task`; the queued closure is `[task]{ (*task)(); }`.
Invoking a `std::packaged_task` whose stored callable raises stores the
failure in the shared state of the paired future and returns normally.
A callable outcome is `Except ε α`: `ok` a value or `error` a raised
failure.
-/

/-- `std::bind(f, args...)` inside `pack_shared_task`: the zero-argument
bound call, deferred until a worker invokes it. -/
def thread_pool.pack_shared_task {β ε α : Type} (f : β → Except ε α) (arg : β) :
    Unit → Except ε α :=
  fun _ => f arg

/-- The shared state of the `std::future` handle paired with a packaged
task: `none` while pending, otherwise the value or the captured failure. -/
structure Handle (ε α : Type) where
  result : Option (Except ε α)

/-- Invoking the `std::packaged_task`: run the stored bound call and
capture its outcome — value or raised failure — into the shared state; the
invocation itself completes normally either way. -/
def packaged_task_invoke {ε α : Type} (call : Unit → Except ε α) : Handle ε α :=
  ⟨some (call ())⟩

/-- Running the type-erased queued closure `[task]{ (*task)(); }` on a
worker: fills the handle, and the closure's own outcome is always `ok` —
no failure escapes into the worker loop. -/
def queued_closure_run {ε α : Type} (call : Unit → Except ε α) :
    Handle ε α × Except ε Unit :=
  (packaged_task_invoke call, Except.ok ())

/-- `std::future::get` once the worker has finished: the value, or the
propagated failure, surfaced to the caller only at this retrieval. -/
def future_get {ε α : Type} (h : Handle ε α) : Option (Except ε α) :=
  h.result

/-- Modelled from the spec: the worker loop body lives in a translation
unit absent from `src/` (only its header is present).  Per §4.1 each worker
pops the front task, executes it outside the lock, and loops; a failure
raised by the callable is captured by the packaged task, so the worker
survives it and continues with the remaining queued tasks.  `worker_drain`
is the resulting processing of a queue segment in order. -/
def worker_drain {ε α : Type} : List (Unit → Except ε α) → List (Handle ε α)
  | [] => []
  | call :: rest => packaged_task_invoke call :: worker_drain rest

/-!
## `task_pool` construction-time state, `reset`, and the task queue
-/

/-- The configuration-and-queue state of a `task_pool`: the originally
supplied worker count `init_n` (kept by `reset`), the live worker count,
`max_tasks`, and the queue. -/
structure task_pool_state where
  init_n : Nat
  workers : Nat
  max_tasks : Nat
  queue : List Nat
deriving Repr, DecidableEq

/-- The `task_pool` constructor: `thread_pool(std::max<size_t>(n, 1), ...)`
with `max_tasks(std::max<size_t>(n, 1))` and an initially empty queue. -/
def task_pool.init (n : Nat) : task_pool_state :=
  ⟨n, max n 1, max n 1, []⟩

/-- `task_pool::get_max_task_num`: returns `max_tasks`. -/
def task_pool.get_max_task_num (p : task_pool_state) : Nat :=
  p.max_tasks

/-- Modelled from the spec: `task_pool::reset` is only declared in the
header; its body is in a translation unit absent from `src/`.  Per §4.2 it
blocks until all queued tasks complete, then destroys and reconstructs the
underlying worker pool with the originally supplied worker count,
preserving `max_tasks`. -/
def task_pool.reset (p : task_pool_state) : task_pool_state :=
  { p with workers := max p.init_n 1, queue := [] }

/-- The operations that can touch a `task_pool` after construction. -/
inductive pool_op : Type
  | push_task (task : Nat)
  | pop_task
  | do_reset

/-- Apply one post-construction operation to the pool state. -/
def apply_op : pool_op → task_pool_state → task_pool_state
  | .push_task task, p => { p with queue := p.queue ++ [task] }
  | .pop_task, p => { p with queue := p.queue.tail }
  | .do_reset, p => task_pool.reset p

/-- `tasks.push(...)` on the `std::queue`: append at the back. -/
def tasks_push (q : List Nat) (task : Nat) : List Nat :=
  q ++ [task]

/-- Modelled from the spec: the worker loop body is absent from `src/`;
per §4.1 a woken worker pops the front task (`tasks.front()` then
`tasks.pop()`). -/
def tasks_pop : List Nat → Option (Nat × List Nat)
  | [] => none
  | task :: rest => some (task, rest)

/-- Repeatedly pop until the queue is empty, collecting the order in which
tasks leave the queue and begin executing. -/
def drain_order : List Nat → List Nat
  | [] => []
  | task :: rest => task :: drain_order rest

/-!
## Helper lemmas
-/

/-- The capacity loop only returns in a state whose queue passes
`can_enqueue_unlocked`, whatever the inner wait policy does. -/
theorem gatedWait_canEnqueue (max_tasks : Nat) (w : Policy) :
    ∀ (fuel : Nat) (o : Obs) (t : Time) (s : Sched) (o' : Obs) (t' : Time) (s' : Sched),
    gatedWait max_tasks w fuel o t s = some (o', t', s') →
    task_pool.can_enqueue_unlocked max_tasks o'.queue = true := by
  intro fuel
  induction fuel with
  | zero =>
    intro o t s o' t' s' h
    simp only [gatedWait] at h
    split at h
    next hc =>
      simp only [Option.some.injEq, Prod.mk.injEq] at h
      obtain ⟨rfl, -, -⟩ := h
      exact hc
    next => exact Option.noConfusion h
  | succ fuel ih =>
    intro o t s o' t' s' h
    simp only [gatedWait] at h
    split at h
    next hc =>
      simp only [Option.some.injEq, Prod.mk.injEq] at h
      obtain ⟨rfl, -, -⟩ := h
      exact hc
    next =>
      rw [Option.bind_eq_some] at h
      obtain ⟨⟨o1, t1, s1⟩, -, h⟩ := h
      exact ih o1 t1 s1 o' t' s' h

/-- `can_enqueue_unlocked` holds exactly when the queue is strictly below
`max_tasks`. -/
theorem can_enqueue_unlocked_iff (max_tasks : Nat) (q : List Nat) :
    task_pool.can_enqueue_unlocked max_tasks q = true ↔ q.length < max_tasks := by
  simp [task_pool.can_enqueue_unlocked, thread_pool.size_unlocked]

/-- Any admission through `task_pool::wait_to_enqueue` happens in a state
whose queue passed the capacity check, under the same lock as the push, and
leaves the queue no longer than `max_tasks`. -/
theorem wait_to_enqueue_admits (max_tasks : Nat) (w : Policy) (fuel task : Nat)
    (o : Obs) (t : Time) (s : Sched) (q' : List Nat) (t' : Time)
    (h : task_pool.wait_to_enqueue max_tasks w fuel task o t s = some (q', t')) :
    ∃ o' s', gatedWait max_tasks w fuel o t s = some (o', t', s') ∧
      task_pool.can_enqueue_unlocked max_tasks o'.queue = true ∧
      q' = o'.queue ++ [task] ∧ q'.length ≤ max_tasks := by
  unfold task_pool.wait_to_enqueue at h
  rcases hg : gatedWait max_tasks w fuel o t s with - | ⟨o1, t1, s1⟩
  · rw [hg] at h
    exact Option.noConfusion h
  · rw [hg] at h
    simp only [Option.some.injEq, Prod.mk.injEq] at h
    obtain ⟨rfl, rfl⟩ := h
    have hc := gatedWait_canEnqueue max_tasks w fuel o t s o1 t1 s1 hg
    refine ⟨o1, s1, rfl, hc, rfl, ?_⟩
    have hlen : o1.queue.length < max_tasks := (can_enqueue_unlocked_iff _ _).1 hc
    simp only [List.length_append, List.length_cons, List.length_nil]
    omega

/-- Every public submission member of `task_pool` is
`task_pool::wait_to_enqueue` applied to that member's wait policy. -/
theorem run_submit_factors (p : submit_path) (max_tasks fuel task : Nat)
    (o : Obs) (t : Time) (s : Sched) :
    run_submit p max_tasks fuel task o t s =
      task_pool.wait_to_enqueue max_tasks (submit_policy max_tasks p) fuel task o t s := by
  cases p <;> rfl

/-- A single queue mutation preserves the capacity bound. -/
theorem pool_step_preserves (max_tasks : Nat) (q q' : List Nat)
    (hstep : pool_step max_tasks q q') (hq : q.length ≤ max_tasks) :
    q'.length ≤ max_tasks := by
  cases hstep with
  | admit_task q task h =>
    have hlen : q.length < max_tasks := (can_enqueue_unlocked_iff _ _).1 h
    simp only [List.length_append, List.length_cons, List.length_nil]
    omega
  | pop task q =>
    simp only [List.length_cons] at hq
    omega

/-- `cvWait` with a predicate returns only in a state where the predicate
holds (level-triggered, spurious wakes re-checked). -/
theorem cvWait_pred (pred : Obs → Bool) :
    ∀ (s : Sched) (o : Obs) (t : Time) (o' : Obs) (t' : Time) (s' : Sched),
    cvWait pred o t s = some (o', t', s') → pred o' = true := by
  intro s
  induction s with
  | nil =>
    intro o t o' t' s' h
    simp only [cvWait] at h
    split at h
    next hp =>
      simp only [Option.some.injEq, Prod.mk.injEq] at h
      obtain ⟨rfl, -, -⟩ := h
      exact hp
    next => exact Option.noConfusion h
  | cons e rest ih =>
    intro o t o' t' s' h
    obtain ⟨tw, o1⟩ := e
    simp only [cvWait] at h
    split at h
    next hp =>
      simp only [Option.some.injEq, Prod.mk.injEq] at h
      obtain ⟨rfl, -, -⟩ := h
      exact hp
    next => exact ih o1 (max t tw) o' t' s' h

/-- A single `wait_until` with deadline `dl`, entered at time `t`, returns
no later than `max t dl`. -/
theorem cvWaitUntil_time_le (pred : Obs → Bool) (dl : Time) :
    ∀ (s : Sched) (o : Obs) (t : Time),
    (cvWaitUntil pred dl o t s).2.2.1 ≤ max t dl := by
  intro s
  induction s with
  | nil =>
    intro o t
    simp only [cvWaitUntil]
    split
    · exact le_max_left t dl
    · split
      · exact le_max_left t dl
      · exact le_max_right t dl
  | cons e rest ih =>
    intro o t
    obtain ⟨tw, o1⟩ := e
    simp only [cvWaitUntil]
    split
    · exact le_max_left t dl
    · split
      · exact le_max_left t dl
      · split
        · exact le_max_right t dl
        · next hlt =>
            have h3 : tw ≤ dl := Nat.le_of_not_lt hlt
            have h2 := ih o1 (max t tw)
            rw [Nat.max_assoc, Nat.max_eq_right h3] at h2
            exact h2

/-- A single `wait_for` with duration `dur`, entered at time `t`, returns
no later than `t + dur`. -/
theorem cvWaitFor_time_le (pred : Obs → Bool) (dur : Nat) (o : Obs) (t : Time) (s : Sched) :
    (cvWaitFor pred dur o t s).2.2.1 ≤ t + dur := by
  have h := cvWaitUntil_time_le pred (t + dur) s o t
  rw [Nat.max_eq_right (Nat.le_add_right t dur)] at h
  simp only [cvWaitFor]
  exact h

/-- Worker processing distributes over queue concatenation: the worker
carries on past any segment, in order. -/
theorem worker_drain_append {ε α : Type} (l1 l2 : List (Unit → Except ε α)) :
    worker_drain (l1 ++ l2) = worker_drain l1 ++ worker_drain l2 := by
  induction l1 with
  | nil => rfl
  | cons c rest ih => simp [worker_drain, ih]

/-- No post-construction operation changes `max_tasks`. -/
theorem apply_op_max_tasks (op : pool_op) (p : task_pool_state) :
    (apply_op op p).max_tasks = p.max_tasks := by
  cases op <;> rfl

/-- No sequence of post-construction operations changes `max_tasks`. -/
theorem foldl_apply_op_max_tasks (ops : List pool_op) :
    ∀ p : task_pool_state,
    (ops.foldl (fun q op => apply_op op q) p).max_tasks = p.max_tasks := by
  induction ops with
  | nil => intro p; rfl
  | cons op rest ih =>
    intro p
    rw [List.foldl_cons, ih, apply_op_max_tasks]

/-- Popping until empty yields the queue contents front to back. -/
theorem drain_order_eq (q : List Nat) : drain_order q = q := by
  induction q with
  | nil => rfl
  | cons task rest ih => simp [drain_order, ih]

/-- Pushing a list of tasks in order appends them in order. -/
theorem foldl_tasks_push (ts : List Nat) :
    ∀ q : List Nat, ts.foldl tasks_push q = q ++ ts := by
  induction ts with
  | nil => intro q; simp
  | cons task rest ih =>
    intro q
    simp [List.foldl_cons, tasks_push, ih]

/-- The worker produces one handle per queued task: it survives every task
and reaches the end of the queue. -/
theorem worker_drain_length {ε α : Type} (l : List (Unit → Except ε α)) :
    (worker_drain l).length = l.length := by
  induction l with
  | nil => rfl
  | cons c rest ih => simp [worker_drain, ih]

/-- Every queued task is executed by the worker. -/
theorem worker_drain_mem {ε α : Type} (c : Unit → Except ε α)
    (l : List (Unit → Except ε α)) (h : c ∈ l) :
    packaged_task_invoke c ∈ worker_drain l := by
  induction l with
  | nil => cases h
  | cons c1 rest ih =>
    cases h with
    | head => exact List.mem_cons_self _ _
    | tail _ htail => exact List.mem_cons_of_mem _ (ih htail)

/-- Every reachable queue of a `task_pool` respects the capacity bound. -/
theorem pool_reachable_length (max_tasks : Nat) (q : List Nat)
    (h : pool_reachable max_tasks q) : q.length ≤ max_tasks := by
  unfold pool_reachable at h
  induction h with
  | refl => simp
  | tail hsteps hstep ih => exact pool_step_preserves _ _ _ hstep ih

/-!
## Claims
-/

/-- Claim C1: for every `task_pool`, every public submission admits a task
only when the current queue length is strictly below `max_tasks`, the check
being made under the same lock used to push (the pushed queue extends
exactly the queue seen by the final capacity check); consequently the queue
length never exceeds `max_tasks` at any observation point (any queue
reachable by admissions and worker pops). -/
theorem C1_capacity_gated_admission :
    (∀ (p : submit_path) (max_tasks fuel task : Nat) (o : Obs) (t : Time) (s : Sched)
        (q' : List Nat) (t' : Time),
      run_submit p max_tasks fuel task o t s = some (q', t') →
      ∃ o' s',
        gatedWait max_tasks (submit_policy max_tasks p) fuel o t s = some (o', t', s') ∧
        task_pool.can_enqueue_unlocked max_tasks o'.queue = true ∧
        q' = o'.queue ++ [task] ∧ q'.length ≤ max_tasks) ∧
    (∀ (max_tasks : Nat) (q : List Nat),
      pool_reachable max_tasks q → q.length ≤ max_tasks) := by
  constructor
  · intro p max_tasks fuel task o t s q' t' h
    rw [run_submit_factors] at h
    exact wait_to_enqueue_admits max_tasks _ fuel task o t s q' t' h
  · intro max_tasks q h
    exact pool_reachable_length max_tasks q h

/-- Witness for C1 at a concrete input: `wait` on an empty pool with
`max_tasks = 1` admits task `5`, the capacity check having passed, and the
queue `[5]` is reachable with length within the bound. -/
theorem C1_capacity_gated_admission_witness :
    (∃ o' s',
      gatedWait 1 (submit_policy 1 submit_path.s_wait) 0 ⟨[], true⟩ 0 [] = some (o', 0, s') ∧
      task_pool.can_enqueue_unlocked 1 o'.queue = true ∧
      ([5] : List Nat) = o'.queue ++ [5] ∧ ([5] : List Nat).length ≤ 1) ∧
    ([5] : List Nat).length ≤ 1 :=
  ⟨C1_capacity_gated_admission.1 submit_path.s_wait 1 0 5 ⟨[], true⟩ 0 [] [5] 0 rfl,
   C1_capacity_gated_admission.2 1 [5]
     (Relation.ReflTransGen.single (pool_step.admit_task [] 5 (by decide)))⟩

/-- Claim C2 counterexample: `max_tasks = 1`, queue full at `[7]`,
`poll_for` with duration `3`, and the only notification arriving at time
`5` with the queue still full.  The timed wait returns at its deadline
(time `3`) with the combined condition false — and, contrary to the claim,
the task is NOT admitted: the enclosing capacity loop re-checks
`can_enqueue_unlocked` and keeps waiting (here until its fuel is spent), so
the queue never exceeds `max_tasks`. -/
theorem C2_timed_poll_counterexample :
    cvWaitFor (combined_pred 1 (fun o => o.ext)) 3 ⟨[7], true⟩ 0 [(5, ⟨[7], true⟩)]
      = (false, ⟨[7], true⟩, 3, [(5, ⟨[7], true⟩)]) ∧
    task_pool.poll_for 1 (fun o => o.ext) 3 4 42 ⟨[7], true⟩ 0 [(5, ⟨[7], true⟩)] = none :=
  ⟨rfl, rfl⟩

/-- Claim C2 amended: in `poll_for` and `poll_until` the underlying timed
wait can return on deadline expiry without the combined condition holding,
but control then returns to the capacity loop of
`task_pool::wait_to_enqueue`, which re-checks `can_enqueue_unlocked` and
re-invokes the wait while the queue is full.  A task is therefore admitted
only in a state with spare capacity (the caller-supplied predicate may by
then be false), and the queue length never exceeds `max_tasks`. -/
theorem C2_timed_poll_amended :
    ∀ (max_tasks : Nat) (poller : Obs → Bool) (dur : Nat) (abs_time : Time)
      (fuel task : Nat) (o : Obs) (t : Time) (s : Sched) (q' : List Nat) (t' : Time),
    (task_pool.poll_for max_tasks poller dur fuel task o t s = some (q', t') →
      ∃ o' s',
        gatedWait max_tasks (pollForPolicy max_tasks poller dur) fuel o t s
          = some (o', t', s') ∧
        task_pool.can_enqueue_unlocked max_tasks o'.queue = true ∧
        q' = o'.queue ++ [task] ∧ q'.length ≤ max_tasks) ∧
    (task_pool.poll_until max_tasks poller abs_time fuel task o t s = some (q', t') →
      ∃ o' s',
        gatedWait max_tasks (pollUntilPolicy max_tasks poller abs_time) fuel o t s
          = some (o', t', s') ∧
        task_pool.can_enqueue_unlocked max_tasks o'.queue = true ∧
        q' = o'.queue ++ [task] ∧ q'.length ≤ max_tasks) := by
  intro max_tasks poller dur abs_time fuel task o t s q' t'
  exact ⟨fun h => wait_to_enqueue_admits max_tasks _ fuel task o t s q' t' h,
         fun h => wait_to_enqueue_admits max_tasks _ fuel task o t s q' t' h⟩

/-- Witness for the amended C2: a `poll_for` run whose first timed wait
expires with the queue still full and which is admitted at its second wait,
once a completion has freed capacity. -/
theorem C2_timed_poll_amended_witness :
    task_pool.poll_for 1 (fun o => o.ext) 3 2 42 ⟨[9], true⟩ 0 [(5, ⟨[], true⟩)]
      = some ([42], 5) ∧
    (∃ o' s',
      gatedWait 1 (pollForPolicy 1 (fun o => o.ext) 3) 2 ⟨[9], true⟩ 0 [(5, ⟨[], true⟩)]
        = some (o', 5, s') ∧
      task_pool.can_enqueue_unlocked 1 o'.queue = true ∧
      ([42] : List Nat) = o'.queue ++ [42] ∧ ([42] : List Nat).length ≤ 1) :=
  ⟨rfl,
   (C2_timed_poll_amended 1 (fun o => o.ext) 3 0 2 42 ⟨[9], true⟩ 0
     [(5, ⟨[], true⟩)] [42] 5).1 rfl⟩

/-- Claim C3: `thread_pool::enqueue` is `wait_to_enqueue` with the no-op
wait policy: the task is packaged before the lock, pushed between acquire
and release, exactly one worker is notified after the release, and the
submitter performs no waiting action (its handle is returned immediately). -/
theorem C3_enqueue_is_noop_wait_to_enqueue :
    ∀ (σ : Type) (task : Nat) (st : σ) (q : List Nat),
    thread_pool.enqueue task st q
      = thread_pool.wait_to_enqueue thread_pool.noop_waiter task st q ∧
    thread_pool.enqueue task st q =
      some (st, q ++ [task],
        [thread_pool.Ev.buildTask, thread_pool.Ev.acquire, thread_pool.Ev.assertOwns,
         thread_pool.Ev.push, thread_pool.Ev.release, thread_pool.Ev.notifyOne]) ∧
    evBefore thread_pool.Ev.acquire thread_pool.Ev.push
      [thread_pool.Ev.buildTask, thread_pool.Ev.acquire, thread_pool.Ev.assertOwns,
       thread_pool.Ev.push, thread_pool.Ev.release, thread_pool.Ev.notifyOne] ∧
    evBefore thread_pool.Ev.push thread_pool.Ev.release
      [thread_pool.Ev.buildTask, thread_pool.Ev.acquire, thread_pool.Ev.assertOwns,
       thread_pool.Ev.push, thread_pool.Ev.release, thread_pool.Ev.notifyOne] ∧
    evBefore thread_pool.Ev.release thread_pool.Ev.notifyOne
      [thread_pool.Ev.buildTask, thread_pool.Ev.acquire, thread_pool.Ev.assertOwns,
       thread_pool.Ev.push, thread_pool.Ev.release, thread_pool.Ev.notifyOne] ∧
    List.count thread_pool.Ev.notifyOne
      [thread_pool.Ev.buildTask, thread_pool.Ev.acquire, thread_pool.Ev.assertOwns,
       thread_pool.Ev.push, thread_pool.Ev.release, thread_pool.Ev.notifyOne] = 1 ∧
    List.countP isWaitEv
      [thread_pool.Ev.buildTask, thread_pool.Ev.acquire, thread_pool.Ev.assertOwns,
       thread_pool.Ev.push, thread_pool.Ev.release, thread_pool.Ev.notifyOne] = 0 := by
  intro σ task st q
  refine ⟨rfl, rfl, ?_, ?_, ?_, by decide, by decide⟩
  · exact ⟨[thread_pool.Ev.buildTask], [thread_pool.Ev.assertOwns],
      [thread_pool.Ev.release, thread_pool.Ev.notifyOne], rfl⟩
  · exact ⟨[thread_pool.Ev.buildTask, thread_pool.Ev.acquire, thread_pool.Ev.assertOwns],
      [], [thread_pool.Ev.notifyOne], rfl⟩
  · exact ⟨[thread_pool.Ev.buildTask, thread_pool.Ev.acquire, thread_pool.Ev.assertOwns,
      thread_pool.Ev.push], [], [], rfl⟩

/-- Claim C4 counterexample: `wait_for` with duration `3` on a full
`max_tasks = 1` pool whose capacity frees at time `5`: the first timed wait
expires at time `3`, the capacity loop re-invokes it, and the task is
admitted at time `5` — the submitter waited longer than the supplied
duration, so the total admission wait is not bounded by it. -/
theorem C4_timeout_bound_counterexample :
    task_pool.wait_for 1 3 2 42 ⟨[9], true⟩ 0 [(5, ⟨[], true⟩)] = some ([42], 5) ∧
    (3 : Nat) < 5 - 0 :=
  ⟨rfl, by decide⟩

/-- Claim C4 amended: each single invocation of the underlying timed wait
is bounded — a `wait_for`-style wait entered at time `t` with duration
`dur` returns by `t + dur`, and a `wait_until`-style wait returns by its
absolute deadline (or immediately if entered after it) — and only the wait
for admission is ever time-bounded, never the execution of the task; but
the capacity loop of `task_pool::wait_to_enqueue` re-invokes the timed wait
while the queue is full, so the total admission wait of the `_for` variants
can exceed the supplied duration. -/
theorem C4_single_wait_bounded :
    ∀ (pred : Obs → Bool) (dur : Nat) (dl : Time) (o : Obs) (t : Time) (s : Sched),
    (cvWaitFor pred dur o t s).2.2.1 ≤ t + dur ∧
    (cvWaitUntil pred dl o t s).2.2.1 ≤ max t dl ∧
    (∃ (mt dur2 fuel task : Nat) (o2 : Obs) (t2 : Time) (s2 : Sched)
        (q' : List Nat) (t' : Time),
      task_pool.wait_for mt dur2 fuel task o2 t2 s2 = some (q', t') ∧
      t2 + dur2 < t') := by
  intro pred dur dl o t s
  refine ⟨cvWaitFor_time_le pred dur o t s, cvWaitUntil_time_le pred dl s o t, ?_⟩
  exact ⟨1, 3, 2, 42, ⟨[9], true⟩, 0, [(5, ⟨[], true⟩)], [42], 5, rfl, by decide⟩

/-- Claim C5 counterexample: with capacity available (`max_tasks = 1`,
empty queue), `poll` admits the task immediately even though the
caller-supplied poller is false throughout: the capacity loop's condition
is already satisfied, so the combined predicate is never consulted. -/
theorem C5_poll_predicate_counterexample :
    task_pool.poll 1 (fun o => o.ext) 0 5 ⟨[], false⟩ 0 [] = some ([5], 0) ∧
    Obs.ext ⟨[], false⟩ = false :=
  ⟨rfl, rfl⟩

/-- Claim C5 amended: `poll` admits the task once `can_enqueue_unlocked()`
holds at an evaluation under the lock; the combined
`poller() && can_enqueue_unlocked()` condition is waited on — re-evaluated
at every wake, spurious wakes tolerated — only while the queue is at
capacity, and whenever that inner wait completes it does so at an
evaluation where the combined condition holds; when capacity is available
at entry, the poller is not consulted.  `can_enqueue_unlocked()` itself is
true exactly when the queue length is strictly below `max_tasks`. -/
theorem C5_poll_amended :
    ∀ (max_tasks fuel task : Nat) (poller : Obs → Bool) (o : Obs) (t : Time)
      (s : Sched) (q' : List Nat) (t' : Time) (o' : Obs) (t2 : Time) (s' : Sched)
      (q2 : List Nat),
    (task_pool.poll max_tasks poller fuel task o t s = some (q', t') →
      ∃ o3 s3,
        gatedWait max_tasks (pollPolicy max_tasks poller) fuel o t s = some (o3, t', s3) ∧
        task_pool.can_enqueue_unlocked max_tasks o3.queue = true ∧
        q' = o3.queue ++ [task] ∧ q'.length ≤ max_tasks) ∧
    (cvWait (combined_pred max_tasks poller) o t s = some (o', t2, s') →
      combined_pred max_tasks poller o' = true) ∧
    (task_pool.can_enqueue_unlocked max_tasks q2 = true ↔ q2.length < max_tasks) := by
  intro max_tasks fuel task poller o t s q' t' o' t2 s' q2
  exact ⟨fun h => wait_to_enqueue_admits max_tasks _ fuel task o t s q' t' h,
         fun h => cvWait_pred (combined_pred max_tasks poller) s o t o' t2 s' h,
         can_enqueue_unlocked_iff max_tasks q2⟩

/-- Witness for the amended C5: a `poll` on a full `max_tasks = 1` pool
whose wake at time `2` finds the poller true and the queue drained: the
inner wait completes with the combined condition holding and the task is
admitted within the bound. -/
theorem C5_poll_amended_witness :
    task_pool.poll 1 (fun o => o.ext) 1 5 ⟨[9], true⟩ 0 [(2, ⟨[], true⟩)]
      = some ([5], 2) ∧
    (∃ o3 s3,
      gatedWait 1 (pollPolicy 1 (fun o => o.ext)) 1 ⟨[9], true⟩ 0 [(2, ⟨[], true⟩)]
        = some (o3, 2, s3) ∧
      task_pool.can_enqueue_unlocked 1 o3.queue = true ∧
      ([5] : List Nat) = o3.queue ++ [5] ∧ ([5] : List Nat).length ≤ 1) ∧
    cvWait (combined_pred 1 (fun o => o.ext)) ⟨[9], true⟩ 0 [(2, ⟨[], true⟩)]
      = some (⟨[], true⟩, 2, []) ∧
    combined_pred 1 (fun o => o.ext) ⟨[], true⟩ = true ∧
    (task_pool.can_enqueue_unlocked 1 [] = true ↔ ([] : List Nat).length < 1) :=
  ⟨rfl,
   (C5_poll_amended 1 1 5 (fun o => o.ext) ⟨[9], true⟩ 0 [(2, ⟨[], true⟩)] [5] 2
     ⟨[], true⟩ 2 [] []).1 rfl,
   rfl,
   (C5_poll_amended 1 1 5 (fun o => o.ext) ⟨[9], true⟩ 0 [(2, ⟨[], true⟩)] [5] 2
     ⟨[], true⟩ 2 [] []).2.1 rfl,
   (C5_poll_amended 1 1 5 (fun o => o.ext) ⟨[9], true⟩ 0 [(2, ⟨[], true⟩)] [5] 2
     ⟨[], true⟩ 2 [] []).2.2⟩

/-- Claim C6: a failure raised by a submitted callable is captured into the
task's handle and surfaced only when the caller retrieves the result; the
queued closure completes normally (nothing escapes into the worker loop),
the worker processes the entire queue — surviving the failing task — and
every other queued task is executed and yields its own result unaffected. -/
theorem C6_failure_capture :
    ∀ (β ε α : Type) (f : β → Except ε α) (arg : β) (e : ε)
      (pre post : List (Unit → Except ε α)),
    f arg = Except.error e →
    (queued_closure_run (thread_pool.pack_shared_task f arg)).2 = Except.ok () ∧
    future_get (queued_closure_run (thread_pool.pack_shared_task f arg)).1
      = some (Except.error e) ∧
    worker_drain (pre ++ thread_pool.pack_shared_task f arg :: post)
      = worker_drain pre
        ++ packaged_task_invoke (thread_pool.pack_shared_task f arg) :: worker_drain post ∧
    packaged_task_invoke (thread_pool.pack_shared_task f arg)
      = Handle.mk (some (Except.error e)) ∧
    (worker_drain (pre ++ thread_pool.pack_shared_task f arg :: post)).length
      = pre.length + 1 + post.length ∧
    (∀ c ∈ post,
      packaged_task_invoke c ∈ worker_drain (pre ++ thread_pool.pack_shared_task f arg :: post)) := by
  intro β ε α f arg e pre post h
  refine ⟨rfl, ?_, ?_, ?_, ?_, ?_⟩
  · simp [future_get, queued_closure_run, packaged_task_invoke,
      thread_pool.pack_shared_task, h]
  · rw [worker_drain_append]
    rfl
  · simp [packaged_task_invoke, thread_pool.pack_shared_task, h]
  · rw [worker_drain_length]
    simp only [List.length_append, List.length_cons]
    omega
  · intro c hc
    exact worker_drain_mem c _ (by simp [hc])

/-- Witness for C6: a concrete failing callable among two succeeding ones;
its handle carries the failure, the closure returns normally, the worker
processes all three tasks, and the later task is still executed. -/
theorem C6_failure_capture_witness :
    (queued_closure_run (thread_pool.pack_shared_task
        (fun _ : Nat => (Except.error 3 : Except Nat Nat)) 0)).2 = Except.ok () ∧
    future_get (queued_closure_run (thread_pool.pack_shared_task
        (fun _ : Nat => (Except.error 3 : Except Nat Nat)) 0)).1
      = some (Except.error 3) ∧
    (worker_drain ([fun _ => Except.ok 1]
        ++ thread_pool.pack_shared_task
            (fun _ : Nat => (Except.error 3 : Except Nat Nat)) 0
          :: [fun _ => Except.ok 2])).length = 1 + 1 + 1 ∧
    packaged_task_invoke (fun _ => (Except.ok 2 : Except Nat Nat))
      ∈ worker_drain ([fun _ => Except.ok 1]
          ++ thread_pool.pack_shared_task
              (fun _ : Nat => (Except.error 3 : Except Nat Nat)) 0
            :: [fun _ => Except.ok 2]) := by
  have h := C6_failure_capture Nat Nat Nat
    (fun _ : Nat => (Except.error 3 : Except Nat Nat)) 0 3
    [fun _ => Except.ok 1] [fun _ => Except.ok 2] rfl
  exact ⟨h.1, h.2.1, h.2.2.2.2.1, h.2.2.2.2.2 _ (by simp)⟩

/-- Claim C7: a `task_pool` constructed with worker count `n` has
`max_tasks = max(n, 1)`, equal to its worker count, fixed at construction;
no later sequence of operations — pushes, pops, or `reset` — changes it,
and `get_max_task_num` always returns it. -/
theorem C7_max_tasks_fixed :
    ∀ (n : Nat) (ops : List pool_op),
    (task_pool.init n).max_tasks = max n 1 ∧
    (task_pool.init n).max_tasks = (task_pool.init n).workers ∧
    task_pool.get_max_task_num (task_pool.init n) = max n 1 ∧
    (ops.foldl (fun p op => apply_op op p) (task_pool.init n)).max_tasks = max n 1 ∧
    task_pool.get_max_task_num
      (ops.foldl (fun p op => apply_op op p) (task_pool.init n)) = max n 1 ∧
    (task_pool.reset (task_pool.init n)).max_tasks = max n 1 := by
  intro n ops
  have hfold := foldl_apply_op_max_tasks ops (task_pool.init n)
  exact ⟨rfl, rfl, rfl, hfold, hfold, rfl⟩

/-- Claim C8: tasks admitted to the shared queue leave it in admission
order, with no reordering: draining the queue built by a sequence of pushes
yields exactly that sequence, the dequeue order is the queue order, and a
later push never changes which task is popped next. -/
theorem C8_fifo_order :
    ∀ (ts q : List Nat) (task : Nat),
    drain_order (ts.foldl tasks_push []) = ts ∧
    drain_order q = q ∧
    (q ≠ [] →
      (tasks_pop (tasks_push q task)).map Prod.fst = (tasks_pop q).map Prod.fst) := by
  intro ts q task
  refine ⟨?_, drain_order_eq q, ?_⟩
  · rw [foldl_tasks_push]
    exact drain_order_eq ts
  · intro hq
    cases q with
    | nil => exact absurd rfl hq
    | cons a rest => rfl

/-- Witness for C8 at a concrete input: pushes `[1, 2, 3]` drain as
`[1, 2, 3]`, and pushing `9` behind `[4]` leaves `4` the next task
popped. -/
theorem C8_fifo_order_witness :
    ([4] : List Nat) ≠ [] ∧
    drain_order (([1, 2, 3] : List Nat).foldl tasks_push []) = [1, 2, 3] ∧
    drain_order [4] = [4] ∧
    (tasks_pop (tasks_push [4] 9)).map Prod.fst = (tasks_pop [4]).map Prod.fst := by
  have h := C8_fifo_order [1, 2, 3] [4] 9
  exact ⟨by decide, h.1, h.2.1, h.2.2 (by decide)⟩

/-- A sample wait policy for exercising `thread_pool::wait_to_enqueue`:
performs two internal actions and returns with the lock held. -/
def sample_waiter : Nat → thread_pool.WaitRes Nat :=
  fun st => ⟨st + 1, true, [0, 1]⟩

/-- Claim C9: `thread_pool::wait_to_enqueue` builds the task and handle
before acquiring the lock, invokes the caller-supplied wait policy while
holding the lock, and — given that the policy returns with the lock held —
the ownership assertion succeeds, the task is pushed before the lock is
released, and one worker is notified afterward. -/
theorem C9_wait_to_enqueue_protocol :
    ∀ (σ : Type) (w : σ → thread_pool.WaitRes σ) (task : Nat) (st : σ) (q : List Nat),
    (w st).owns = true →
    thread_pool.wait_to_enqueue w task st q =
      some ((w st).st, q ++ [task], wait_to_enqueue_trace (w st).evs) ∧
    evBefore thread_pool.Ev.buildTask thread_pool.Ev.acquire
      (wait_to_enqueue_trace (w st).evs) ∧
    evBefore thread_pool.Ev.acquire thread_pool.Ev.assertOwns
      (wait_to_enqueue_trace (w st).evs) ∧
    evBefore thread_pool.Ev.push thread_pool.Ev.release
      (wait_to_enqueue_trace (w st).evs) ∧
    evBefore thread_pool.Ev.release thread_pool.Ev.notifyOne
      (wait_to_enqueue_trace (w st).evs) := by
  intro σ w task st q h
  refine ⟨by simp [thread_pool.wait_to_enqueue, h], ?_, ?_, ?_, ?_⟩
  · exact ⟨[], [],
      (w st).evs.map thread_pool.Ev.policyEv
        ++ [thread_pool.Ev.assertOwns, thread_pool.Ev.push,
            thread_pool.Ev.release, thread_pool.Ev.notifyOne], rfl⟩
  · exact ⟨[thread_pool.Ev.buildTask], (w st).evs.map thread_pool.Ev.policyEv,
      [thread_pool.Ev.push, thread_pool.Ev.release, thread_pool.Ev.notifyOne], rfl⟩
  · refine ⟨[thread_pool.Ev.buildTask, thread_pool.Ev.acquire]
      ++ (w st).evs.map thread_pool.Ev.policyEv ++ [thread_pool.Ev.assertOwns],
      [], [thread_pool.Ev.notifyOne], ?_⟩
    simp [wait_to_enqueue_trace]
  · refine ⟨[thread_pool.Ev.buildTask, thread_pool.Ev.acquire]
      ++ (w st).evs.map thread_pool.Ev.policyEv
      ++ [thread_pool.Ev.assertOwns, thread_pool.Ev.push], [], [], ?_⟩
    simp [wait_to_enqueue_trace]

/-- Witness for C9: a concrete wait policy that performs two actions and
returns with the lock held; the call succeeds, pushes behind the existing
task, and its trace orders push before release. -/
theorem C9_wait_to_enqueue_protocol_witness :
    (sample_waiter 0).owns = true ∧
    thread_pool.wait_to_enqueue sample_waiter 7 0 [3] =
      some (1, [3, 7], wait_to_enqueue_trace [0, 1]) ∧
    evBefore thread_pool.Ev.push thread_pool.Ev.release (wait_to_enqueue_trace [0, 1]) := by
  have h := C9_wait_to_enqueue_protocol Nat sample_waiter 7 0 [3] rfl
  exact ⟨rfl, h.1, h.2.2.2.1⟩

/-- Claim C10: `task_pool` inherits `thread_pool` privately and re-exports
neither `enqueue` nor the base `wait_to_enqueue`; its public submission
surface is exactly `poll`, `poll_for`, `poll_until`, `wait`, `wait_for`,
`wait_until`, and `task_pool::wait_to_enqueue` (`submit_path`), every one
of which runs the capacity-gated loop around its wait policy, so no public
path admits a task into a queue already at `max_tasks` — a `task_pool`
offers no public unbounded submission. -/
theorem C10_public_surface_gated :
    ∀ (p : submit_path) (max_tasks fuel task : Nat) (o : Obs) (t : Time) (s : Sched),
    run_submit p max_tasks fuel task o t s =
      task_pool.wait_to_enqueue max_tasks (submit_policy max_tasks p) fuel task o t s ∧
    (∀ (q' : List Nat) (t' : Time),
      run_submit p max_tasks fuel task o t s = some (q', t') →
      q'.length ≤ max_tasks) := by
  intro p max_tasks fuel task o t s
  refine ⟨run_submit_factors p max_tasks fuel task o t s, ?_⟩
  intro q' t' h
  rw [run_submit_factors] at h
  obtain ⟨o', s', -, -, -, hlen⟩ :=
    wait_to_enqueue_admits max_tasks _ fuel task o t s q' t' h
  exact hlen

/-- Witness for C10: even a caller-supplied wait policy handed to
`task_pool::wait_to_enqueue` goes through the capacity gate; at `max_tasks
= 1` on an empty queue the submission is admitted within the bound. -/
theorem C10_public_surface_gated_witness :
    run_submit (submit_path.s_wait_to_enqueue (fun o t s => some (o, t, s)))
        1 0 5 ⟨[], true⟩ 0 []
      = task_pool.wait_to_enqueue 1
          (submit_policy 1 (submit_path.s_wait_to_enqueue (fun o t s => some (o, t, s))))
          0 5 ⟨[], true⟩ 0 [] ∧
    run_submit (submit_path.s_wait_to_enqueue (fun o t s => some (o, t, s)))
        1 0 5 ⟨[], true⟩ 0 [] = some ([5], 0) ∧
    ([5] : List Nat).length ≤ 1 := by
  have h := C10_public_surface_gated
    (submit_path.s_wait_to_enqueue (fun o t s => some (o, t, s))) 1 0 5 ⟨[], true⟩ 0 []
  exact ⟨h.1, rfl, h.2 [5] 0 rfl⟩

end ZBase







